import Mathlib

/-
Verification of the topos computational-geometry kernel.

This file gives a shallow embedding of the core of the `topos` library
(`topos/core/vertices.py`, `topos/core/generators.py`,
`topos/core/transforms.py`, `topos/core/io.py`, `topos/core/faces.py`,
`topos/core/geometry.py`) and proves properties of the embedded code.

Modelling conventions:
- a numpy `(n, 3)` float buffer is a `List Vec3` with `Vec3 = ℝ × ℝ × ℝ`
  (64-bit floats are idealised as reals, so "within floating tolerance"
  becomes exact equality);
- `np.arctan2 y x` is `Complex.arg ⟨x, y⟩` (both return the angle of the
  point `(x, y)` in `(-π, π]`, and both send the origin to `0`);
- Python integers are `ℕ` or `ℤ`; `range(a, b)` is `pyRange a b`;
- in-place mutation of numpy buffers (the `VertexTransform` pipeline) is
  modelled with an explicit store of buffers indexed by references.
-/

namespace Topos

/-- A row of an `(n, 3)` vertex buffer. -/
abbrev Vec3 : Type := ℝ × ℝ × ℝ

/-- Model of `np.arctan2 y x`: the argument of the point `(x, y)`,
in the range `(-π, π]`, with `arctan2 0 0 = 0`. -/
noncomputable def arctan2 (y x : ℝ) : ℝ := Complex.arg ⟨x, y⟩

/-- Embeds `Cartesian.cylindrical` (vertices.py): per row,
`RS = sqrt(XS*XS + YS*YS)`, `TS = arctan2(YS, XS)`, output column
order `(θ, z, r)` via `dstack([TS, ZS, RS])`. -/
noncomputable def Cartesian.cylindrical (data : List Vec3) : List Vec3 :=
  data.map fun v => (arctan2 v.2.1 v.1, v.2.2, Real.sqrt (v.1 * v.1 + v.2.1 * v.2.1))

/-- Embeds `Cylindrical.cartesian` (vertices.py): per stored row `(θ, z, r)`,
`XS = RS*cos(TS)`, `YS = RS*sin(TS)`, `z` unchanged, output `(x, y, z)`. -/
noncomputable def Cylindrical.cartesian (data : List Vec3) : List Vec3 :=
  data.map fun v => (v.2.2 * Real.cos v.1, v.2.2 * Real.sin v.1, v.2.1)

/-- Column 0 of a buffer, i.e. `data[:, 0]`. -/
def col0 (data : List Vec3) : List ℝ := data.map fun v => v.1

/-- Column 1 of a buffer, i.e. `data[:, 1]`. -/
def col1 (data : List Vec3) : List ℝ := data.map fun v => v.2.1

/-- Column 2 of a buffer, i.e. `data[:, 2]`. -/
def col2 (data : List Vec3) : List ℝ := data.map fun v => v.2.2

/-- Column assignment `data[:, 0] = xs` (row count of `xs` must match). -/
def setCol0 (data : List Vec3) (xs : List ℝ) : List Vec3 :=
  List.zipWith (fun v x => (x, v.2.1, v.2.2)) data xs

/-- Column assignment `data[:, 1] = ys`. -/
def setCol1 (data : List Vec3) (ys : List ℝ) : List Vec3 :=
  List.zipWith (fun v y => (v.1, y, v.2.2)) data ys

/-- Column assignment `data[:, 2] = zs`. -/
def setCol2 (data : List Vec3) (zs : List ℝ) : List Vec3 :=
  List.zipWith (fun v z => (v.1, v.2.1, z)) data zs

/-- Embeds `Cartesian.set_x`: `self._data[:, 0] = xs`. -/
def Cartesian.set_x (data : List Vec3) (xs : List ℝ) : List Vec3 := setCol0 data xs

/-- Embeds `Cartesian.set_y`: `self._data[:, 1] = ys`. -/
def Cartesian.set_y (data : List Vec3) (ys : List ℝ) : List Vec3 := setCol1 data ys

/-- Embeds `Cartesian.set_z`: `self._data[:, 2] = zs`. -/
def Cartesian.set_z (data : List Vec3) (zs : List ℝ) : List Vec3 := setCol2 data zs

/-- Embeds `Cartesian.set_r`: reads `ts = self.cylindrical[:, 0]` from the
current buffer, computes `xs = rs*cos(ts)`, `ys = rs*sin(ts)`, then writes
columns 0 and 1. -/
noncomputable def Cartesian.set_r (data : List Vec3) (rs : List ℝ) : List Vec3 :=
  let ts := (Cartesian.cylindrical data).map fun v => v.1
  let xs := List.zipWith (fun r t => r * Real.cos t) rs ts
  let ys := List.zipWith (fun r t => r * Real.sin t) rs ts
  setCol1 (setCol0 data xs) ys

/-- Embeds `Cartesian.set_t`: reads `rs = self.cylindrical[:, 2]` from the
current buffer, computes `xs = rs*cos(ts)`, `ys = rs*sin(ts)`, then writes
columns 0 and 1. -/
noncomputable def Cartesian.set_t (data : List Vec3) (ts : List ℝ) : List Vec3 :=
  let rs := (Cartesian.cylindrical data).map fun v => v.2.2
  let xs := List.zipWith (fun r t => r * Real.cos t) rs ts
  let ys := List.zipWith (fun r t => r * Real.sin t) rs ts
  setCol1 (setCol0 data xs) ys

/-- A vertex array: the `VertexArray` abstract class with its two concrete
subclasses `Cartesian` and `Cylindrical`, each owning an `(n, 3)` buffer. -/
inductive VertexArray : Type
  | cart (data : List Vec3)
  | cyl (data : List Vec3)

/-- The underlying buffer `self._data`. -/
def VertexArray.data : VertexArray → List Vec3
  | .cart d => d
  | .cyl d => d

/-- The `system` property: the name of the concrete class. -/
def VertexArray.system : VertexArray → String
  | .cart _ => "Cartesian"
  | .cyl _ => "Cylindrical"

/-- The `length` property: number of rows. -/
def VertexArray.length (a : VertexArray) : ℕ := a.data.length

/-- The `cartesian` property of each subclass. -/
noncomputable def VertexArray.cartesian : VertexArray → List Vec3
  | .cart d => d
  | .cyl d => Cylindrical.cartesian d

/-- The `cylindrical` property of each subclass. -/
noncomputable def VertexArray.cylindrical : VertexArray → List Vec3
  | .cart d => Cartesian.cylindrical d
  | .cyl d => d

/-- The `fromarray` classmethod: wrap a buffer in the same concrete class
as `a`. -/
def VertexArray.fromarray : VertexArray → List Vec3 → VertexArray
  | .cart _, d => .cart d
  | .cyl _, d => .cyl d

/-- Models `b.__getattribute__(a.system.lower())`: the buffer of `b`
expressed in the native system of `a`. -/
noncomputable def VertexArray.nativeOf : VertexArray → VertexArray → List Vec3
  | .cart _, b => b.cartesian
  | .cyl _, b => b.cylindrical

/-- The right-hand operands accepted by `VertexArray.__add__`: another
vertex array, a numpy array (split by shape: `ndarr3` is shape `(3,)`,
`ndarrOther s` is any other shape `s ≠ [3]`), or any other Python value. -/
inductive AddOperand : Type
  | varr (b : VertexArray)
  | ndarr3 (v : Vec3)
  | ndarrOther (shape : List ℕ)
  | other

/-- The two failure messages of `VertexArray.__add__` (both surface as a
`VertexAdditionError`): "Incompatible shape {}, array must have shape (3,)"
and "Addition is not supported with type {}". -/
inductive AdditionError : Type
  | incompatibleShape
  | unsupportedOperand
deriving DecidableEq

/-- Embeds `VertexArray.__add__`: for another array, concatenate
`(vs, us)` where `vs` is the other array in `self`'s system and `us` is
`self`'s native buffer; for a shape-`(3,)` numpy array, translate every
native row; otherwise fail. -/
noncomputable def VertexArray.add (a : VertexArray) (o : AddOperand) :
    Except AdditionError VertexArray :=
  match o with
  | .varr b => .ok (a.fromarray (a.nativeOf b ++ a.nativeOf a))
  | .ndarr3 v =>
      .ok (a.fromarray ((a.nativeOf a).map fun u => (u.1 + v.1, u.2.1 + v.2.1, u.2.2 + v.2.2)))
  | .ndarrOther _ => .error .incompatibleShape
  | .other => .error .unsupportedOperand

/-- Embeds `VertexArray.fmt`: `prefix + sep.join(fmtstr.format(*v) for v in
self.cartesian) + suffix`.  Formatting one row through the fixed positional
template `fmtstr` is a pure function of the row, modelled by `fmtRow`. -/
noncomputable def VertexArray.fmt (a : VertexArray) (fmtRow : Vec3 → String)
    (pre suf sep : String) : String :=
  pre ++ String.intercalate sep (a.cartesian.map fmtRow) ++ suf

/-- Model of Python `range(a, b)`. -/
def pyRange (a b : ℕ) : List ℕ := (List.range (b - a)).map (· + a)

/-- One face built by the inner loop of `cylindrical_faces` (generators.py)
for band `j` and column `i`, including the wrap correction applied to the
`lower_right`/`upper_right` corners. -/
def cylFace (N_theta j i : ℕ) : ℤ × ℤ × ℤ × ℤ :=
  let J : ℤ := (j : ℤ)
  let T : ℤ := (N_theta : ℤ)
  let I : ℤ := (i : ℤ)
  let lower_left := J * T + I
  let lower_right0 := J * T + I + 1
  let upper_right0 := (J + 1) * T + I + 1
  let upper_left := (J + 1) * T + I
  let lower_right := if lower_right0 ≥ (J + 1) * T then lower_right0 - (T - 1) else lower_right0
  let upper_right := if upper_right0 ≥ (J + 2) * T then upper_right0 - (T - 1) else upper_right0
  (lower_left, lower_right, upper_right, upper_left)

/-- Embeds `cylindrical_faces(N_theta, N_z, close_loop)`: for
`j in range(0, N_z - 1)` and `i in range(1, N_theta + close_loop)`,
emit the quad `(lower_left, lower_right, upper_right, upper_left)`.
Each element of the result is a 4-tuple, so every face has arity 4. -/
def cylindrical_faces (N_theta N_z : ℕ) (close_loop : Bool) : List (ℤ × ℤ × ℤ × ℤ) :=
  (pyRange 0 (N_z - 1)).flatMap fun j =>
    (pyRange 1 (N_theta + if close_loop then 1 else 0)).map fun i => cylFace N_theta j i

/-- All vertex indices mentioned by a list of quads. -/
def faceIndexList (fs : List (ℤ × ℤ × ℤ × ℤ)) : List ℤ :=
  fs.flatMap fun q => [q.1, q.2.1, q.2.2.1, q.2.2.2]

/-- Embeds `planar_faces(N)` (generators.py): the lower-left anchors are
`ns = [i for i in range(1, N*M) if i % N != 0]` with `M = N - 1`, and each
quad is `(ns, ns + 1, ns + (N + 1), ns + N)` in the `dstack` order
`lower_left, lower_right, upper_right, upper_left`. -/
def planar_faces (N : ℕ) : List (ℕ × ℕ × ℕ × ℕ) :=
  let M := N - 1
  let ns := (pyRange 1 (N * M)).filter fun i => i % N != 0
  ns.map fun n => (n, n + 1, n + (N + 1), n + N)

/-- Model of `np.linspace(a, b, n, endpoint)`: `n` evenly spaced samples
starting at `a`, with step `(b-a)/(n-1)` when the endpoint is included and
`(b-a)/n` when it is excluded.  (Division by zero in ℝ returns 0, which
reproduces numpy's `linspace(a, b, 1) == [a]`.) -/
noncomputable def linspace (a b : ℝ) (n : ℕ) (endpoint : Bool) : List ℝ :=
  if endpoint then
    (List.range n).map fun k : ℕ => a + (k : ℝ) * ((b - a) / ((n : ℝ) - 1))
  else
    (List.range n).map fun k : ℕ => a + (k : ℝ) * ((b - a) / (n : ℝ))

/-- The error raised by `cylindrical_vertices` when `N_theta < 1`
("Argument N_theta must be positive"). -/
inductive GeneratorError : Type
  | invalidCount
deriving DecidableEq

/-- The vertex buffer built by `cylindrical_vertices`:
`ts = linspace(theta_min, theta_max, N_theta, endpoint=(theta_max < 2π))`,
`zs = linspace(zmin, zmax, N_z)`, then `meshgrid(ts, zs)` flattened
row-major (θ varies fastest) and stacked as `(θ, z, r)`. -/
noncomputable def cylindricalVertexData (N_theta N_z : ℕ)
    (r zmin zmax theta_min theta_max : ℝ) : List Vec3 :=
  let ts :=
    if theta_max < 2 * Real.pi then linspace theta_min theta_max N_theta true
    else linspace theta_min theta_max N_theta false
  let zs := linspace zmin zmax N_z true
  zs.flatMap fun z => ts.map fun t => (t, z, r)

/-- Embeds `cylindrical_vertices(N_theta, N_z, r, zmin, zmax, theta_min,
theta_max)` including the positivity check on `N_theta`. -/
noncomputable def cylindrical_vertices (N_theta N_z : ℕ)
    (r zmin zmax theta_min theta_max : ℝ) : Except GeneratorError (List Vec3) :=
  if N_theta < 1 then .error .invalidCount
  else .ok (cylindricalVertexData N_theta N_z r zmin zmax theta_min theta_max)

/-- A heap of vertex buffers: references below `next` are allocated.
This makes the in-place mutation done by vertex transforms observable. -/
structure Store : Type where
  bufs : ℕ → List Vec3
  next : ℕ

/-- Embeds `VertexArray.copy` for a buffer held in a store: a fresh
reference whose contents are a copy of the source buffer
(`vs = np.array(self.data)`).  Returns the new store and the new ref. -/
def Store.copyBuf (s : Store) (ref : ℕ) : Store × ℕ :=
  (⟨Function.update s.bufs s.next (s.bufs ref), s.next + 1⟩, s.next)

/-- A `Mesh` / `Geometry`: references to its vertex buffer and face array,
and the optional `_name` (the `name` getter substitutes a default). -/
structure MeshObj : Type where
  vertsRef : ℕ
  facesRef : ℕ
  nameOpt : Option String

/-- The `Geometry.name` getter: the stored name, or the fixed placeholder
"Geometry" when unset. -/
def MeshObj.name (g : MeshObj) : String := g.nameOpt.getD "Geometry"

/-- The left operand of `geometry >> transform`: a `Geometry`, or any
other Python value. -/
inductive PyVal : Type
  | geom (g : MeshObj)
  | nonGeom

/-- The error of `VertexTransform.__rrshift__`: "Transforms can only be
applied to Geometry objects". -/
inductive TransformError : Type
  | notGeometry
deriving DecidableEq

/-- The `Geometry` branch of `VertexTransform.__rrshift__`: copy the
source's vertex buffer, run the transform on the copy in place (a
transform is a pure function on buffer contents, applied through the
reference it was handed, so a transform that mutates its input in place is
covered), and build `Mesh(verts=new_verts, faces=other.faces,
name=other.name)`. -/
def VertexTransform.apply (tf : List Vec3 → List Vec3) (s : Store) (g : MeshObj) :
    Store × MeshObj :=
  let sc := Store.copyBuf s g.vertsRef
  let s2 : Store := ⟨Function.update sc.1.bufs sc.2 (tf (sc.1.bufs sc.2)), sc.1.next⟩
  (s2, ⟨sc.2, g.facesRef, some g.name⟩)

/-- Embeds `VertexTransform.__rrshift__`: fails unless the left operand is
a `Geometry`, otherwise applies the transform to a copy. -/
def rrshift (tf : List Vec3 → List Vec3) (s : Store) (o : PyVal) :
    Except TransformError (Store × MeshObj) :=
  match o with
  | .nonGeom => .error .notGeometry
  | .geom g => .ok (VertexTransform.apply tf s g)

/-- A parsed JSON record, as seen by `JsonFormat._load` after
`json.loads`: each field is present or absent; `vertices` rows and `faces`
rows keep their raw lengths so the downstream shape checks are visible. -/
structure JsonData : Type where
  name : Option String
  vertices : Option (List (List ℝ))
  faces : Option (List (List ℤ))

/-- Failures of `JsonFormat._load`: the two missing-field `TypeError`s, the
`VertexDataError` from `Cartesian(...)` when a vertex row is not a
3-tuple, and the `FaceDataError` from `Quads(...)` when a face row is not
a 4-tuple. -/
inductive LoadError : Type
  | missingField (field : String)
  | invalidVertexShape
  | wrongArity
deriving DecidableEq

/-- The result of a successful load: a mesh with a name, a Cartesian
vertex buffer and a quad face array. -/
structure LoadedMesh : Type where
  name : String
  vertices : List (List ℝ)
  faces : List (List ℤ)

/-- Whether `np.array(rows)` has shape `(n, k)`: only a nonempty
rectangular list of `k`-entry rows produces a 2-D numpy array with
`shape[1] = k`; in particular `np.array([])` has the 1-D shape `(0,)`, so
an empty list fails the `(n, k)` shape checks in the `VertexArray` and
`FaceArray` constructors. -/
def hasShape2D (k : ℕ) (rows : List (List α)) : Bool :=
  !rows.isEmpty && rows.all fun row => row.length = k

/-- Embeds `JsonFormat._load`: check the `vertices` and `faces` fields are
present, default the name to "<json_mesh>", then build
`Cartesian(np.array(vertices))` (whose constructor demands shape `(n, 3)`)
and `Quads(np.array(faces))` (whose constructor demands shape `(n, 4)` —
the loader always constructs `Quads`). -/
def JsonFormat.load (d : JsonData) : Except LoadError LoadedMesh :=
  match d.vertices with
  | none => .error (.missingField "vertices")
  | some vs =>
    match d.faces with
    | none => .error (.missingField "faces")
    | some fs =>
      let name := d.name.getD "<json_mesh>"
      if hasShape2D 3 vs then
        if hasShape2D 4 fs then .ok ⟨name, vs, fs⟩
        else .error .wrongArity
      else .error .invalidVertexShape

/-- Whether a load result is a missing-field failure. -/
def isMissingFieldError : Except LoadError LoadedMesh → Bool
  | .error (.missingField _) => true
  | _ => false

/- ------------------------------------------------------------------ -/
/- Theorems.                                                           -/
/- ------------------------------------------------------------------ -/

/-- The modulus of `⟨x, y⟩` is the radius `sqrt (x*x + y*y)`. -/
lemma complexAbs_mk (x y : ℝ) : Complex.abs ⟨x, y⟩ = Real.sqrt (x * x + y * y) := by
  rw [Complex.abs_apply, Complex.normSq_mk]

lemma complex_mk_ne_zero (x y : ℝ) (h : 0 < x * x + y * y) : (⟨x, y⟩ : ℂ) ≠ 0 := by
  intro h0
  rw [Complex.ext_iff] at h0
  simp only [Complex.zero_re, Complex.zero_im] at h0
  rw [h0.1, h0.2] at h
  norm_num at h

/-- Radius times the cosine of the recovered angle gives back `x`. -/
lemma sqrt_mul_cos_arctan2 (x y : ℝ) (h : 0 < x * x + y * y) :
    Real.sqrt (x * x + y * y) * Real.cos (arctan2 y x) = x := by
  have hne : (⟨x, y⟩ : ℂ) ≠ 0 := complex_mk_ne_zero x y h
  have habs : Complex.abs ⟨x, y⟩ ≠ 0 := Complex.abs.ne_zero hne
  rw [arctan2, Complex.cos_arg hne, ← complexAbs_mk x y]
  field_simp

/-- Radius times the sine of the recovered angle gives back `y`. -/
lemma sqrt_mul_sin_arctan2 (x y : ℝ) (h : 0 < x * x + y * y) :
    Real.sqrt (x * x + y * y) * Real.sin (arctan2 y x) = y := by
  have hne : (⟨x, y⟩ : ℂ) ≠ 0 := complex_mk_ne_zero x y h
  have habs : Complex.abs ⟨x, y⟩ ≠ 0 := Complex.abs.ne_zero hne
  rw [arctan2, Complex.sin_arg, ← complexAbs_mk x y]
  field_simp

/-- The recovered angle of `(r cos θ, r sin θ)` is `θ` itself, for `r > 0`
and `θ` in the principal range `(-π, π]`. -/
lemma arctan2_polar (r θ : ℝ) (hr : 0 < r) (h1 : -Real.pi < θ) (h2 : θ ≤ Real.pi) :
    arctan2 (r * Real.sin θ) (r * Real.cos θ) = θ := by
  have hmk : (⟨r * Real.cos θ, r * Real.sin θ⟩ : ℂ) =
      (r : ℂ) * (Complex.cos θ + Complex.sin θ * Complex.I) := by
    apply Complex.ext <;>
      simp [Complex.mul_re, Complex.mul_im, Complex.cos_ofReal_re, Complex.sin_ofReal_re,
        Complex.cos_ofReal_im, Complex.sin_ofReal_im]
  rw [arctan2, hmk, Complex.arg_real_mul _ hr,
    Complex.arg_cos_add_sin_mul_I ⟨h1, h2⟩]

/-- The recovered radius of `(r cos θ, r sin θ)` is `r` itself, for `r ≥ 0`. -/
lemma sqrt_polar (r θ : ℝ) (hr : 0 ≤ r) :
    Real.sqrt (r * Real.cos θ * (r * Real.cos θ) + r * Real.sin θ * (r * Real.sin θ)) = r := by
  have h : r * Real.cos θ * (r * Real.cos θ) + r * Real.sin θ * (r * Real.sin θ) = r ^ 2 := by
    have hs := Real.sin_sq_add_cos_sq θ
    nlinarith [hs]
  rw [h, Real.sqrt_sq hr]

/-- Writing column 0 replaces that column and leaves the other two
columns untouched, when the new column has the right length. -/
lemma setCol0_cols (d : List Vec3) (xs : List ℝ) (h : xs.length = d.length) :
    col0 (setCol0 d xs) = xs ∧ col1 (setCol0 d xs) = col1 d ∧
      col2 (setCol0 d xs) = col2 d := by
  induction d generalizing xs with
  | nil =>
    rw [List.length_nil, List.length_eq_zero] at h
    subst h
    simp [col0, col1, col2, setCol0]
  | cons v d ih =>
    cases xs with
    | nil => simp at h
    | cons x xs =>
      simp only [List.length_cons, Nat.add_right_cancel_iff] at h
      obtain ⟨h0, h1, h2⟩ := ih xs h
      simp only [setCol0, List.zipWith_cons_cons, col0, col1, col2, List.map_cons] at *
      exact ⟨by rw [h0], by rw [h1], by rw [h2]⟩

/-- Writing column 1: same statement for the middle column. -/
lemma setCol1_cols (d : List Vec3) (ys : List ℝ) (h : ys.length = d.length) :
    col0 (setCol1 d ys) = col0 d ∧ col1 (setCol1 d ys) = ys ∧
      col2 (setCol1 d ys) = col2 d := by
  induction d generalizing ys with
  | nil =>
    rw [List.length_nil, List.length_eq_zero] at h
    subst h
    simp [col0, col1, col2, setCol1]
  | cons v d ih =>
    cases ys with
    | nil => simp at h
    | cons y ys =>
      simp only [List.length_cons, Nat.add_right_cancel_iff] at h
      obtain ⟨h0, h1, h2⟩ := ih ys h
      simp only [setCol1, List.zipWith_cons_cons, col0, col1, col2, List.map_cons] at *
      exact ⟨by rw [h0], by rw [h1], by rw [h2]⟩

/-- Writing column 2: same statement for the last column. -/
lemma setCol2_cols (d : List Vec3) (zs : List ℝ) (h : zs.length = d.length) :
    col0 (setCol2 d zs) = col0 d ∧ col1 (setCol2 d zs) = col1 d ∧
      col2 (setCol2 d zs) = zs := by
  induction d generalizing zs with
  | nil =>
    rw [List.length_nil, List.length_eq_zero] at h
    subst h
    simp [col0, col1, col2, setCol2]
  | cons v d ih =>
    cases zs with
    | nil => simp at h
    | cons z zs =>
      simp only [List.length_cons, Nat.add_right_cancel_iff] at h
      obtain ⟨h0, h1, h2⟩ := ih zs h
      simp only [setCol2, List.zipWith_cons_cons, col0, col1, col2, List.map_cons] at *
      exact ⟨by rw [h0], by rw [h1], by rw [h2]⟩

lemma length_setCol0 (d : List Vec3) (xs : List ℝ) :
    (setCol0 d xs).length = min d.length xs.length := by
  simp [setCol0]

/-- C2: on the native Cartesian system, each of `set_x`, `set_y`, `set_z`
mutates only its own column; `set_r` recomputes columns `x, y` as
`rs*cos θ0` and `rs*sin θ0` with `θ0 = arctan2(y0, x0)` derived from the
pre-existing `x, y`; `set_t` recomputes them as `r0*cos ts` and `r0*sin ts`
with `r0 = sqrt(x0² + y0²)`; in both foreign-axis cases the `z` column is
untouched. -/
theorem c2_cartesian_setters (data : List Vec3) (vals : List ℝ)
    (h : vals.length = data.length) :
    (col0 (Cartesian.set_x data vals) = vals ∧
      col1 (Cartesian.set_x data vals) = col1 data ∧
      col2 (Cartesian.set_x data vals) = col2 data) ∧
    (col0 (Cartesian.set_y data vals) = col0 data ∧
      col1 (Cartesian.set_y data vals) = vals ∧
      col2 (Cartesian.set_y data vals) = col2 data) ∧
    (col0 (Cartesian.set_z data vals) = col0 data ∧
      col1 (Cartesian.set_z data vals) = col1 data ∧
      col2 (Cartesian.set_z data vals) = vals) ∧
    (col0 (Cartesian.set_r data vals) =
        List.zipWith (fun r v => r * Real.cos (arctan2 v.2.1 v.1)) vals data ∧
      col1 (Cartesian.set_r data vals) =
        List.zipWith (fun r v => r * Real.sin (arctan2 v.2.1 v.1)) vals data ∧
      col2 (Cartesian.set_r data vals) = col2 data) ∧
    (col0 (Cartesian.set_t data vals) =
        List.zipWith
          (fun v t => Real.sqrt (v.1 * v.1 + v.2.1 * v.2.1) * Real.cos t) data vals ∧
      col1 (Cartesian.set_t data vals) =
        List.zipWith
          (fun v t => Real.sqrt (v.1 * v.1 + v.2.1 * v.2.1) * Real.sin t) data vals ∧
      col2 (Cartesian.set_t data vals) = col2 data) := by
  refine ⟨setCol0_cols data vals h, setCol1_cols data vals h, setCol2_cols data vals h,
    ⟨?_, ?_, ?_⟩, ⟨?_, ?_, ?_⟩⟩ <;>
    apply List.ext_getElem <;>
    simp [Cartesian.set_r, Cartesian.set_t, Cartesian.cylindrical, setCol0, setCol1,
      col0, col1, col2, h]

/-- C2 (witness): the setter characterisation at a concrete one-row
buffer, the length hypothesis holding there. -/
theorem c2_cartesian_setters_witness :
    ([(2 : ℝ)].length = [((3 : ℝ), 4, 12)].length) ∧
    col0 (Cartesian.set_x [((3 : ℝ), 4, 12)] [(2 : ℝ)]) = [(2 : ℝ)] ∧
    col0 (Cartesian.set_r [((3 : ℝ), 4, 12)] [(2 : ℝ)]) =
      List.zipWith (fun r v => r * Real.cos (arctan2 v.2.1 v.1)) [(2 : ℝ)]
        [((3 : ℝ), 4, 12)] ∧
    col2 (Cartesian.set_r [((3 : ℝ), 4, 12)] [(2 : ℝ)]) = col2 [((3 : ℝ), 4, 12)] ∧
    col0 (Cartesian.set_t [((3 : ℝ), 4, 12)] [(2 : ℝ)]) =
      List.zipWith (fun v t => Real.sqrt (v.1 * v.1 + v.2.1 * v.2.1) * Real.cos t)
        [((3 : ℝ), 4, 12)] [(2 : ℝ)] ∧
    col2 (Cartesian.set_t [((3 : ℝ), 4, 12)] [(2 : ℝ)]) = col2 [((3 : ℝ), 4, 12)] := by
  have H := c2_cartesian_setters [((3 : ℝ), 4, 12)] [(2 : ℝ)] rfl
  obtain ⟨hx, _, _, hr, ht⟩ := H
  exact ⟨rfl, hx.1, hr.1, hr.2.2, ht.1, ht.2.2⟩

lemma mem_pyRange {a b x : ℕ} : x ∈ pyRange a b ↔ a ≤ x ∧ x < b := by
  simp only [pyRange, List.mem_map, List.mem_range]
  constructor
  · rintro ⟨k, hk, rfl⟩
    omega
  · rintro ⟨h1, h2⟩
    exact ⟨x - a, by omega, by omega⟩

lemma length_pyRange (a b : ℕ) : (pyRange a b).length = b - a := by
  simp [pyRange]

/-- C4: `cylindrical_faces(N_theta, N_z, close_loop)` emits exactly
`(N_theta − 1 + close_loop) · (N_z − 1)` quads, i.e. `(N_theta−1)(N_z−1)`
with `close_loop=False` and `N_theta(N_z−1)` with `close_loop=True`.
Each emitted face is a 4-tuple by the very type of the function. -/
theorem c4_cylindrical_faces_count (N_theta N_z : ℕ) (close_loop : Bool)
    (ht : 1 ≤ N_theta) (hz : 1 ≤ N_z) :
    (cylindrical_faces N_theta N_z close_loop).length =
      (N_theta - 1 + if close_loop then 1 else 0) * (N_z - 1) := by
  rw [cylindrical_faces, List.length_flatMap]
  have hc : List.map
      (List.length ∘ fun j =>
        (pyRange 1 (N_theta + if close_loop then 1 else 0)).map fun i => cylFace N_theta j i)
      (pyRange 0 (N_z - 1)) =
      List.replicate (pyRange 0 (N_z - 1)).length
        (N_theta + (if close_loop then 1 else 0) - 1) := by
    rw [← List.map_const']
    apply List.map_congr_left
    intro j _
    simp [length_pyRange]
  rw [hc, List.sum_const_nat, length_pyRange, Nat.sub_zero]
  cases close_loop with
  | true =>
    have h1 : N_theta + (if (true : Bool) = true then 1 else 0) - 1 = N_theta - 1 + 1 := by
      rw [if_pos rfl]
      omega
    have h2 : N_theta - 1 + (if (true : Bool) = true then 1 else 0) = N_theta - 1 + 1 := by
      rw [if_pos rfl]
    rw [h1, h2, Nat.mul_comm]
  | false =>
    have h1 : N_theta + (if (false : Bool) = true then 1 else 0) - 1 = N_theta - 1 := by
      rw [if_neg (by simp), Nat.add_zero]
    have h2 : N_theta - 1 + (if (false : Bool) = true then 1 else 0) = N_theta - 1 := by
      rw [if_neg (by simp), Nat.add_zero]
    rw [h1, h2, Nat.mul_comm]

/-- C4 (witness): the count at `N_theta = 3`, `N_z = 3`, `close_loop=True`. -/
theorem c4_cylindrical_faces_count_witness :
    1 ≤ 3 ∧ 1 ≤ 3 ∧
      (cylindrical_faces 3 3 true).length = (3 - 1 + if true then 1 else 0) * (3 - 1) :=
  ⟨by norm_num, by norm_num,
    c4_cylindrical_faces_count 3 3 true (by norm_num) (by norm_num)⟩

/-- C3 (counterexample): the claim fails as stated.  With
`N_theta = N_z = 2` and `close_loop=True` the quad list is
`[(1,1,3,3), (2,2,4,4)]`, so the index `4 = N_theta·N_z` is produced and
the strict bound `< N_theta·N_z` is violated (the 1-indexed last vertex is
a legitimate index).  Moreover with `N_theta = 1` the quad `(1,2,3,2)` is
produced, whose index `3` even exceeds `N_theta·N_z = 2`. -/
theorem c3_loop_closure_counterexample :
    ((2 : ℤ) * 2 ∈ faceIndexList (cylindrical_faces 2 2 true) ∧
        ¬((2 : ℤ) * 2 < 2 * 2)) ∧
      ((3 : ℤ) ∈ faceIndexList (cylindrical_faces 1 2 true) ∧ (1 : ℤ) * 2 < 3) := by
  decide

/-- C3 (amended): for `N_theta ≥ 2` (and any `N_z`), every vertex index in
every quad of `cylindrical_faces(N_theta, N_z, close_loop=True)` lies in
the valid 1-indexed range `1 .. N_theta·N_z` — that is, no index exceeds
`N_theta·N_z` (rather than being strictly below it), the wrap correction
being as the code has it: a computed `lower_right`/`upper_right` landing
on or past `(j+1)·N_theta` (resp. `(j+2)·N_theta`) is decremented by
`N_theta − 1`. -/
theorem c3_loop_closure_amended (N_theta N_z : ℕ) (h : 2 ≤ N_theta) :
    ∀ q ∈ cylindrical_faces N_theta N_z true,
      (1 ≤ q.1 ∧ q.1 ≤ (N_theta : ℤ) * (N_z : ℤ)) ∧
      (1 ≤ q.2.1 ∧ q.2.1 ≤ (N_theta : ℤ) * (N_z : ℤ)) ∧
      (1 ≤ q.2.2.1 ∧ q.2.2.1 ≤ (N_theta : ℤ) * (N_z : ℤ)) ∧
      (1 ≤ q.2.2.2 ∧ q.2.2.2 ≤ (N_theta : ℤ) * (N_z : ℤ)) := by
  intro q hq
  rw [show cylindrical_faces N_theta N_z true =
      (pyRange 0 (N_z - 1)).flatMap fun j =>
        (pyRange 1 (N_theta + 1)).map fun i => cylFace N_theta j i from rfl] at hq
  simp only [List.mem_flatMap, List.mem_map] at hq
  obtain ⟨j, hj, i, hi, rfl⟩ := hq
  rw [mem_pyRange] at hj hi
  have hj2 : j + 2 ≤ N_z := by omega
  have hi2 : i ≤ N_theta := by omega
  have hj' : (j : ℤ) + 2 ≤ (N_z : ℤ) := by exact_mod_cast hj2
  have hi1' : (1 : ℤ) ≤ (i : ℤ) := by exact_mod_cast hi.1
  have hi2' : (i : ℤ) ≤ (N_theta : ℤ) := by exact_mod_cast hi2
  have hT : (2 : ℤ) ≤ (N_theta : ℤ) := by exact_mod_cast h
  have hJ : (0 : ℤ) ≤ (j : ℤ) := Int.natCast_nonneg j
  have key : ((j : ℤ) + 2) * (N_theta : ℤ) ≤ (N_z : ℤ) * (N_theta : ℤ) :=
    mul_le_mul_of_nonneg_right hj' (by linarith)
  have hJT : (0 : ℤ) ≤ (j : ℤ) * (N_theta : ℤ) := mul_nonneg hJ (by linarith)
  have key' : (j : ℤ) * (N_theta : ℤ) + 2 * (N_theta : ℤ) ≤
      (N_theta : ℤ) * (N_z : ℤ) := by
    nlinarith [key]
  simp only [cylFace]
  split_ifs with hA hB hB <;>
    refine ⟨⟨by linarith [key', hJT], by linarith [key', hJT]⟩,
      ⟨by linarith [key', hJT], by linarith [key', hJT]⟩,
      ⟨by linarith [key', hJT], by linarith [key', hJT]⟩,
      ⟨by linarith [key', hJT], by linarith [key', hJT]⟩⟩

/-- C3 (witness): the amended bounds at the concrete quad `(1,1,3,3)`
of `cylindrical_faces 2 2 True`. -/
theorem c3_loop_closure_witness :
    2 ≤ 2 ∧ ((1, 1, 3, 3) : ℤ × ℤ × ℤ × ℤ) ∈ cylindrical_faces 2 2 true ∧
      ((1 ≤ ((1, 1, 3, 3) : ℤ × ℤ × ℤ × ℤ).1 ∧
          ((1, 1, 3, 3) : ℤ × ℤ × ℤ × ℤ).1 ≤ ((2 : ℕ) : ℤ) * ((2 : ℕ) : ℤ)) ∧
        (1 ≤ ((1, 1, 3, 3) : ℤ × ℤ × ℤ × ℤ).2.1 ∧
          ((1, 1, 3, 3) : ℤ × ℤ × ℤ × ℤ).2.1 ≤ ((2 : ℕ) : ℤ) * ((2 : ℕ) : ℤ)) ∧
        (1 ≤ ((1, 1, 3, 3) : ℤ × ℤ × ℤ × ℤ).2.2.1 ∧
          ((1, 1, 3, 3) : ℤ × ℤ × ℤ × ℤ).2.2.1 ≤ ((2 : ℕ) : ℤ) * ((2 : ℕ) : ℤ)) ∧
        (1 ≤ ((1, 1, 3, 3) : ℤ × ℤ × ℤ × ℤ).2.2.2 ∧
          ((1, 1, 3, 3) : ℤ × ℤ × ℤ × ℤ).2.2.2 ≤ ((2 : ℕ) : ℤ) * ((2 : ℕ) : ℤ))) :=
  ⟨le_refl 2, by decide,
    c3_loop_closure_amended 2 2 (le_refl 2) (1, 1, 3, 3) (by decide)⟩

/-- Dropping `0` from `range N` leaves `N - 1` elements. -/
lemma length_filter_ne_zero_range (N : ℕ) :
    ((List.range N).filter fun i => i != 0).length = N - 1 := by
  cases N with
  | zero => simp
  | succ n =>
    rw [List.range_succ_eq_map, List.filter_cons]
    have h0 : ((0 : ℕ) != 0) = false := by simp
    rw [h0]
    simp only [Bool.false_eq_true, if_false]
    rw [List.filter_map]
    have hcong : ∀ a ∈ List.range n, ((fun i => i != 0) ∘ Nat.succ) a = (fun _ => true) a := by
      intro a _
      simp [Function.comp]
    rw [List.filter_congr hcong, List.filter_true, List.length_map, List.length_range]
    omega

/-- Counting the non-multiples of `N` below `N·m`: block by block, each
block of `N` consecutive numbers contributes `N - 1` of them. -/
lemma count_non_multiples (N : ℕ) (hN : 1 ≤ N) :
    ∀ m : ℕ, ((List.range (N * m)).filter fun i => i % N != 0).length = m * (N - 1) := by
  intro m
  induction m with
  | zero => simp
  | succ k ih =>
    have hr : List.range (N * (k + 1)) =
        List.range (N * k) ++ (List.range N).map (N * k + ·) := by
      rw [Nat.mul_succ, List.range_add]
    rw [hr, List.filter_append, List.length_append, ih, List.filter_map]
    have hcong : ∀ a ∈ List.range N,
        ((fun i => i % N != 0) ∘ (N * k + ·)) a = (fun i => i != 0) a := by
      intro a ha
      rw [List.mem_range] at ha
      simp only [Function.comp]
      rw [Nat.mul_add_mod, Nat.mod_eq_of_lt ha]
    rw [List.filter_congr hcong, List.length_map, length_filter_ne_zero_range,
      Nat.succ_mul]

/-- For `m ≥ 1` the anchors of `planar_faces` can start the scan at `0`
instead of `1`, because `0` is a multiple of `N` and is filtered out. -/
lemma pyRange_one_filter (N m : ℕ) (hm : 1 ≤ m) :
    (pyRange 1 m).filter (fun i => i % N != 0) =
      (List.range m).filter (fun i => i % N != 0) := by
  obtain ⟨m', rfl⟩ : ∃ m', m = m' + 1 := ⟨m - 1, by omega⟩
  simp only [pyRange, Nat.add_sub_cancel]
  rw [List.range_succ_eq_map, List.filter_cons]
  have h0 : ((0 : ℕ) % N != 0) = false := by simp
  rw [h0]
  simp only [Bool.false_eq_true, if_false]

/-- C5: `planar_faces(N)` yields `(N−1)²` quads; every quad
`(ll, lr, ur, ul)` satisfies `lr−ll = 1`, `ur−ul = 1`, `ul−ll = N`,
`ur−lr = N`; and concretely `planar_faces(3)` has 4 quads, the first being
`(1, 2, 5, 4)`. -/
theorem c5_planar_faces (N : ℕ) (h : 2 ≤ N) :
    (planar_faces N).length = (N - 1) ^ 2 ∧
    (∀ q ∈ planar_faces N,
        q.2.1 - q.1 = 1 ∧ q.2.2.1 - q.2.2.2 = 1 ∧
        q.2.2.2 - q.1 = N ∧ q.2.2.1 - q.2.1 = N) ∧
    (planar_faces 3).length = 4 ∧ (planar_faces 3).head? = some (1, 2, 5, 4) := by
  refine ⟨?_, ?_, by rfl, by rfl⟩
  · simp only [planar_faces, List.length_map]
    rw [pyRange_one_filter N (N * (N - 1)) (Nat.mul_pos (by omega) (by omega)),
      count_non_multiples N (by omega) (N - 1), sq]
  · intro q hq
    simp only [planar_faces, List.mem_map] at hq
    obtain ⟨n, hn, rfl⟩ := hq
    dsimp only
    refine ⟨by omega, by omega, by omega, by omega⟩

/-- C5 (witness): the count and the adjacency law at `N = 3` and the
concrete quad `(1, 2, 5, 4)`. -/
theorem c5_planar_faces_witness :
    2 ≤ 3 ∧ (planar_faces 3).length = (3 - 1) ^ 2 ∧
      (((1, 2, 5, 4) : ℕ × ℕ × ℕ × ℕ) ∈ planar_faces 3 ∧
        ((1, 2, 5, 4) : ℕ × ℕ × ℕ × ℕ).2.1 - ((1, 2, 5, 4) : ℕ × ℕ × ℕ × ℕ).1 = 1) :=
  ⟨by norm_num, (c5_planar_faces 3 (by norm_num)).1,
    by decide, ((c5_planar_faces 3 (by norm_num)).2.1 (1, 2, 5, 4) (by decide)).1⟩

/-- C6: with the default range `theta_min = 0`, `theta_max = 2π`, the
generator excludes the endpoint: the θ samples are `N_theta` pairwise
distinct values in `[0, 2π)`, and the θ column of the produced buffer is
exactly those samples repeated for each `z` row.  With any
`theta_max < 2π` the endpoint is included: `theta_max` itself is among the
`N_theta` evenly spaced samples that populate the θ column. -/
theorem c6_theta_spacing (N_theta N_z : ℕ) (r zmin zmax : ℝ)
    (h2 : 2 ≤ N_theta) (hz : 1 ≤ N_z) :
    cylindrical_vertices N_theta N_z r zmin zmax 0 (2 * Real.pi) =
        .ok (cylindricalVertexData N_theta N_z r zmin zmax 0 (2 * Real.pi)) ∧
      (linspace 0 (2 * Real.pi) N_theta false).length = N_theta ∧
      (linspace 0 (2 * Real.pi) N_theta false).Nodup ∧
      (∀ t ∈ linspace 0 (2 * Real.pi) N_theta false, 0 ≤ t ∧ t < 2 * Real.pi) ∧
      col0 (cylindricalVertexData N_theta N_z r zmin zmax 0 (2 * Real.pi)) =
        (linspace zmin zmax N_z true).flatMap
          (fun _ => linspace 0 (2 * Real.pi) N_theta false) ∧
      0 < (linspace zmin zmax N_z true).length ∧
      (∀ theta_min theta_max : ℝ, theta_max < 2 * Real.pi →
        theta_max ∈ linspace theta_min theta_max N_theta true ∧
          col0 (cylindricalVertexData N_theta N_z r zmin zmax theta_min theta_max) =
            (linspace zmin zmax N_z true).flatMap
              (fun _ => linspace theta_min theta_max N_theta true)) := by
  have hpi := Real.pi_pos
  have hNpos : (0 : ℝ) < (N_theta : ℝ) := by
    have : (0 : ℕ) < N_theta := by omega
    exact_mod_cast this
  have hstep : (0 : ℝ) < (2 * Real.pi - 0) / (N_theta : ℝ) := by
    apply div_pos (by linarith) hNpos
  have hfalse : ∀ a b : ℝ, ∀ n : ℕ, linspace a b n false =
      (List.range n).map fun k : ℕ => a + (k : ℝ) * ((b - a) / (n : ℝ)) := fun _ _ _ => rfl
  have htrue : ∀ a b : ℝ, ∀ n : ℕ, linspace a b n true =
      (List.range n).map fun k : ℕ => a + (k : ℝ) * ((b - a) / ((n : ℝ) - 1)) := fun _ _ _ => rfl
  refine ⟨?_, ?_, ?_, ?_, ?_, ?_, ?_⟩
  · rw [cylindrical_vertices, if_neg (by omega)]
  · rw [hfalse, List.length_map, List.length_range]
  · rw [hfalse]
    apply List.Nodup.map _ (List.nodup_range N_theta)
    intro a b hab
    simp only [add_right_inj] at hab
    have : (a : ℝ) = (b : ℝ) := mul_right_cancel₀ (ne_of_gt hstep) hab
    exact_mod_cast this
  · intro t ht
    rw [hfalse] at ht
    simp only [List.mem_map, List.mem_range] at ht
    obtain ⟨k, hk, rfl⟩ := ht
    constructor
    · have : (0 : ℝ) ≤ (k : ℝ) * ((2 * Real.pi - 0) / (N_theta : ℝ)) :=
        mul_nonneg (Nat.cast_nonneg k) hstep.le
      linarith
    · have hklt : (k : ℝ) < (N_theta : ℝ) := by exact_mod_cast hk
      have h1 : (k : ℝ) * ((2 * Real.pi - 0) / (N_theta : ℝ)) <
          (N_theta : ℝ) * ((2 * Real.pi - 0) / (N_theta : ℝ)) :=
        mul_lt_mul_of_pos_right hklt hstep
      have h2 : (N_theta : ℝ) * ((2 * Real.pi - 0) / (N_theta : ℝ)) = 2 * Real.pi := by
        field_simp
      linarith
  · rw [cylindricalVertexData]
    rw [if_neg (lt_irrefl (2 * Real.pi))]
    rw [col0, List.map_flatMap]
    apply congrArg (List.flatMap (linspace zmin zmax N_z true))
    funext z
    rw [List.map_map]
    exact List.map_id'' (fun x => rfl) _
  · rw [htrue, List.length_map, List.length_range]
    omega
  · intro theta_min theta_max hlt
    have hne : (N_theta : ℝ) - 1 ≠ 0 := by
      have : (2 : ℝ) ≤ (N_theta : ℝ) := by exact_mod_cast h2
      linarith
    constructor
    · rw [htrue]
      simp only [List.mem_map, List.mem_range]
      refine ⟨N_theta - 1, by omega, ?_⟩
      have hcast : ((N_theta - 1 : ℕ) : ℝ) = (N_theta : ℝ) - 1 := by
        have h1 : (1 : ℕ) ≤ N_theta := by omega
        push_cast [h1]
        ring
      rw [hcast]
      field_simp
    · rw [cylindricalVertexData, if_pos hlt, col0, List.map_flatMap]
      apply congrArg (List.flatMap (linspace zmin zmax N_z true))
      funext z
      rw [List.map_map]
      exact List.map_id'' (fun x => rfl) _

/-- C6 (witness): the spacing facts at `N_theta = 2`, `N_z = 1`, the
hypotheses holding there; the endpoint-included case is instantiated at
`theta_max = 1 < 2π`, exhibiting `1` among the samples. -/
theorem c6_theta_spacing_witness :
    2 ≤ 2 ∧ 1 ≤ 1 ∧
      (linspace 0 (2 * Real.pi) 2 false).length = 2 ∧
      (linspace 0 (2 * Real.pi) 2 false).Nodup ∧
      (1 : ℝ) ∈ linspace 0 1 2 true := by
  have H := c6_theta_spacing 2 1 1 0 1 (le_refl 2) (le_refl 1)
  have hlt : (1 : ℝ) < 2 * Real.pi := by
    have := Real.pi_gt_three
    linarith
  exact ⟨le_refl 2, le_refl 1, H.2.1, H.2.2.1, (H.2.2.2.2.2.2 0 1 hlt).1⟩

/-- C7: applying a `VertexTransform` fails with `NotGeometry` on a
non-Geometry left operand; on a Geometry it returns a new Mesh sharing the
source's face array and name, whose vertices are the transform applied to
a copy, while the source Geometry's vertex buffer is unchanged in the
store — for every transform, including in-place ones. -/
theorem c7_transform_isolation (tf : List Vec3 → List Vec3) (s : Store) (g : MeshObj)
    (h : g.vertsRef < s.next) :
    rrshift tf s .nonGeom = .error .notGeometry ∧
    rrshift tf s (.geom g) = .ok (VertexTransform.apply tf s g) ∧
    (VertexTransform.apply tf s g).1.bufs g.vertsRef = s.bufs g.vertsRef ∧
    (VertexTransform.apply tf s g).2.facesRef = g.facesRef ∧
    MeshObj.name (VertexTransform.apply tf s g).2 = g.name ∧
    (VertexTransform.apply tf s g).1.bufs (VertexTransform.apply tf s g).2.vertsRef =
      tf (s.bufs g.vertsRef) := by
  have hne : g.vertsRef ≠ s.next := by omega
  refine ⟨rfl, rfl, ?_, rfl, rfl, ?_⟩
  · show Function.update (Function.update s.bufs s.next (s.bufs g.vertsRef)) s.next
        (tf (Function.update s.bufs s.next (s.bufs g.vertsRef) s.next)) g.vertsRef =
      s.bufs g.vertsRef
    rw [Function.update_noteq hne, Function.update_noteq hne]
  · show Function.update (Function.update s.bufs s.next (s.bufs g.vertsRef)) s.next
        (tf (Function.update s.bufs s.next (s.bufs g.vertsRef) s.next)) s.next =
      tf (s.bufs g.vertsRef)
    rw [Function.update_same, Function.update_same]

/-- C7 (witness): the isolation facts at a concrete one-buffer store, a
Geometry pointing at buffer `0`, and the identity transform. -/
theorem c7_transform_isolation_witness :
    (0 : ℕ) < 1 ∧
    rrshift id (Store.mk (fun _ => []) 1) (.nonGeom) = .error .notGeometry ∧
    rrshift id (Store.mk (fun _ => []) 1) (.geom (MeshObj.mk 0 0 none)) =
      .ok (VertexTransform.apply id (Store.mk (fun _ => []) 1) (MeshObj.mk 0 0 none)) ∧
    (VertexTransform.apply id (Store.mk (fun _ => []) 1) (MeshObj.mk 0 0 none)).1.bufs
        (MeshObj.mk 0 0 none).vertsRef =
      (Store.mk (fun _ => []) 1).bufs (MeshObj.mk 0 0 none).vertsRef ∧
    MeshObj.name
        (VertexTransform.apply id (Store.mk (fun _ => []) 1) (MeshObj.mk 0 0 none)).2 =
      MeshObj.name (MeshObj.mk 0 0 none) := by
  have H := c7_transform_isolation id (Store.mk (fun _ => []) 1) (MeshObj.mk 0 0 none)
    (by norm_num)
  exact ⟨by norm_num, H.1, H.2.1, H.2.2.1, H.2.2.2.2.1⟩

lemma length_nativeOf (a b : VertexArray) : (a.nativeOf b).length = b.length := by
  cases a <;> cases b <;>
    simp [VertexArray.nativeOf, VertexArray.cartesian, VertexArray.cylindrical,
      Cartesian.cylindrical, Cylindrical.cartesian, VertexArray.length, VertexArray.data]

lemma nativeOf_self (a : VertexArray) : a.nativeOf a = a.data := by
  cases a <;> rfl

/-- C8: `a + b` for vertex arrays yields a new array in `a`'s native
system holding the two operands' rows (the right operand's rows, expressed
in `a`'s system, followed by `a`'s rows — `np.concatenate((vs, us))` puts
the other array first), with length `len(a) + len(b)`; `a + v` for a
shape-`(3,)` numpy array translates every native row by `v`, keeping the
length; an ndarray of any other shape fails with the incompatible-shape
message and any other operand with the unsupported-type message (both
surfacing as `VertexAdditionError`).  Operands are values in this model,
so neither is mutated. -/
theorem c8_addition (a b : VertexArray) (v : Vec3) (shape : List ℕ)
    (hs : shape ≠ [3]) :
    (a.add (.varr b)).map VertexArray.system = .ok a.system ∧
    (a.add (.varr b)).map VertexArray.data = .ok (a.nativeOf b ++ a.data) ∧
    (a.add (.varr b)).map VertexArray.length = .ok (a.length + b.length) ∧
    (a.add (.ndarr3 v)).map VertexArray.system = .ok a.system ∧
    (a.add (.ndarr3 v)).map VertexArray.data =
      .ok (a.data.map fun u => (u.1 + v.1, u.2.1 + v.2.1, u.2.2 + v.2.2)) ∧
    (a.add (.ndarr3 v)).map VertexArray.length = .ok a.length ∧
    a.add (.ndarrOther shape) = .error .incompatibleShape ∧
    a.add .other = .error .unsupportedOperand := by
  have hlen : (a.nativeOf b).length = b.length := length_nativeOf a b
  have hself : a.nativeOf a = a.data := nativeOf_self a
  refine ⟨?_, ?_, ?_, ?_, ?_, ?_, rfl, rfl⟩ <;>
    cases a <;>
      simp_all [VertexArray.add, VertexArray.fromarray, VertexArray.system,
        VertexArray.data, VertexArray.length, Except.map, VertexArray.nativeOf,
        Nat.add_comm]

/-- C8 (witness): the addition facts at concrete one-row arrays, the
shape hypothesis holding at shape `(2,)`. -/
theorem c8_addition_witness :
    ([2] : List ℕ) ≠ [3] ∧
    (VertexArray.add (.cart [((1 : ℝ), 2, 3)]) (.varr (.cart [((4 : ℝ), 5, 6)]))).map
        VertexArray.data =
      .ok ((VertexArray.cart [((1 : ℝ), 2, 3)]).nativeOf (.cart [((4 : ℝ), 5, 6)]) ++
        (VertexArray.cart [((1 : ℝ), 2, 3)]).data) ∧
    VertexArray.add (.cart [((1 : ℝ), 2, 3)]) (.ndarrOther [2]) =
      .error .incompatibleShape ∧
    VertexArray.add (.cart [((1 : ℝ), 2, 3)]) .other = .error .unsupportedOperand := by
  have H := c8_addition (.cart [((1 : ℝ), 2, 3)]) (.cart [((4 : ℝ), 5, 6)])
    ((1 : ℝ), 1, 1) [2] (by decide)
  exact ⟨by decide, H.2.1, H.2.2.2.2.2.2.1, H.2.2.2.2.2.2.2⟩

/-- C9 (counterexample): the claim fails as stated.  A record whose
`faces` field holds 3-tuples is not reconstructed: the loader
unconditionally builds `Quads`, so the arity check rejects the rows with a
`FaceDataError` rather than producing a Geometry. -/
theorem c9_json_load_counterexample :
    JsonFormat.load ⟨some "m", some [[0, 0, 0]], some [[1, 2, 3]]⟩ =
      .error .wrongArity := by
  rfl

/-- C9 (amended): the loader reconstructs a Geometry from any record with
an optional `name` (defaulting to the placeholder `<json_mesh>`), a
`vertices` field that forms a shape-`(n, 3)` array and a `faces` field
that forms a shape-`(n, 4)` array.  A `faces` field of 3-tuples is
rejected, since the loader always builds quads; an **empty** `vertices`
or `faces` list is rejected too, because `np.array([])` has shape `(0,)`
and fails the constructors' 2-D shape checks.  The loader fails with a
missing-field error if and only if the `vertices` field or the `faces`
field is absent. -/
theorem c9_json_load_amended :
    (∀ (d : JsonData) (vs : List (List ℝ)) (fs : List (List ℤ)),
        d.vertices = some vs → d.faces = some fs →
        hasShape2D 3 vs = true → hasShape2D 4 fs = true →
        JsonFormat.load d = .ok ⟨d.name.getD "<json_mesh>", vs, fs⟩) ∧
    (∀ (d : JsonData) (fs : List (List ℤ)),
        d.vertices = some [] → d.faces = some fs →
        JsonFormat.load d = .error .invalidVertexShape) ∧
    (∀ (d : JsonData) (vs : List (List ℝ)),
        d.vertices = some vs → hasShape2D 3 vs = true → d.faces = some [] →
        JsonFormat.load d = .error .wrongArity) ∧
    (∀ d : JsonData,
        isMissingFieldError (JsonFormat.load d) = true ↔
          d.vertices = none ∨ d.faces = none) := by
  refine ⟨?_, ?_, ?_, ?_⟩
  · intro d vs fs hv hf h3 h4
    obtain ⟨nm, dv, df⟩ := d
    simp only at hv hf
    subst hv
    subst hf
    simp only [JsonFormat.load]
    rw [if_pos h3, if_pos h4]
  · intro d fs hv hf
    obtain ⟨nm, dv, df⟩ := d
    simp only at hv hf
    subst hv
    subst hf
    simp only [JsonFormat.load]
    rw [if_neg (by simp [hasShape2D])]
  · intro d vs hv h3 hf
    obtain ⟨nm, dv, df⟩ := d
    simp only at hv hf
    subst hv
    subst hf
    simp only [JsonFormat.load]
    rw [if_pos h3, if_neg (by simp [hasShape2D])]
  · intro d
    obtain ⟨nm, dv, df⟩ := d
    cases dv with
    | none => simp [JsonFormat.load, isMissingFieldError]
    | some vs =>
      cases df with
      | none => simp [JsonFormat.load, isMissingFieldError]
      | some fs =>
        simp only [JsonFormat.load]
        constructor
        · intro hmf
          exfalso
          split_ifs at hmf <;> simp [isMissingFieldError] at hmf
        · intro hcontra
          simp at hcontra

/-- C9 (witness): the loader at a concrete record with a missing name,
one 3-tuple vertex row and one 4-tuple face row; plus the empty-vertices
rejection and the missing-field equivalence at concrete records.  All
hypotheses hold there. -/
theorem c9_json_load_witness :
    (JsonData.mk none (some [[0, 0, 0]]) (some [[1, 2, 3, 4]])).vertices =
        some [[(0 : ℝ), 0, 0]] ∧
    (JsonData.mk none (some [[(0 : ℝ), 0, 0]]) (some [[1, 2, 3, 4]])).faces =
        some [[(1 : ℤ), 2, 3, 4]] ∧
    hasShape2D 3 ([[(0 : ℝ), 0, 0]] : List (List ℝ)) = true ∧
    hasShape2D 4 ([[(1 : ℤ), 2, 3, 4]] : List (List ℤ)) = true ∧
    JsonFormat.load ⟨none, some [[0, 0, 0]], some [[1, 2, 3, 4]]⟩ =
      .ok ⟨"<json_mesh>", [[0, 0, 0]], [[1, 2, 3, 4]]⟩ ∧
    JsonFormat.load ⟨none, some [], some [[1, 2, 3, 4]]⟩ =
      .error .invalidVertexShape ∧
    JsonFormat.load ⟨none, some [[0, 0, 0]], some []⟩ = .error .wrongArity ∧
    (isMissingFieldError (JsonFormat.load ⟨none, none, none⟩) = true ↔
      (JsonData.mk none none none).vertices = none ∨
        (JsonData.mk none none none).faces = none) :=
  ⟨rfl, rfl, rfl, rfl,
    c9_json_load_amended.1 ⟨none, some [[0, 0, 0]], some [[1, 2, 3, 4]]⟩
      [[0, 0, 0]] [[1, 2, 3, 4]] rfl rfl rfl rfl,
    c9_json_load_amended.2.1 ⟨none, some [], some [[1, 2, 3, 4]]⟩ [[1, 2, 3, 4]] rfl rfl,
    c9_json_load_amended.2.2.1 ⟨none, some [[0, 0, 0]], some []⟩ [[0, 0, 0]] rfl rfl rfl,
    c9_json_load_amended.2.2.2 ⟨none, none, none⟩⟩

/-- C10: `fmt` assembles `prefix + sep.join(formatted rows) + suffix`
over the rows of the array's **Cartesian conversion**; in particular for a
natively Cylindrical array the rows fed to the row template are the
converted `(x, y, z) = (r cos θ, r sin θ, z)` values, not the stored
`(θ, z, r)` buffer. -/
theorem c10_fmt_cartesian (d : List Vec3) (fmtRow : Vec3 → String)
    (pre suf sep : String) :
    (∀ a : VertexArray, VertexArray.fmt a fmtRow pre suf sep =
        pre ++ String.intercalate sep (a.cartesian.map fmtRow) ++ suf) ∧
    VertexArray.fmt (.cart d) fmtRow pre suf sep =
      pre ++ String.intercalate sep (d.map fmtRow) ++ suf ∧
    VertexArray.fmt (.cyl d) fmtRow pre suf sep =
      pre ++ String.intercalate sep
        (d.map fun v => fmtRow (v.2.2 * Real.cos v.1, v.2.2 * Real.sin v.1, v.2.1)) ++ suf := by
  refine ⟨fun a => rfl, rfl, ?_⟩
  show pre ++ String.intercalate sep ((Cylindrical.cartesian d).map fmtRow) ++ suf = _
  rw [Cylindrical.cartesian, List.map_map]
  rfl

/-- C1 (counterexample): the claim fails as stated.  The cylindrical
buffer `[(2π, 0, 1)]` has radius `1 > 1/2` on its only row, yet
converting to Cartesian and back yields `[(0, 0, 1)]`, which differs
from the original in the angle column by `2π` — far beyond any
floating-point tolerance.  (The stored angle `2π` lies outside
`arctan2`'s range `(-π, π]`, and the code does not restrict stored
angles.) -/
theorem c1_roundtrip_counterexample :
    ((2 * Real.pi, (0 : ℝ), (1 : ℝ)) : Vec3).2.2 > 1 / 2 ∧
      Cartesian.cylindrical (Cylindrical.cartesian [(2 * Real.pi, (0 : ℝ), (1 : ℝ))]) ≠
        [(2 * Real.pi, (0 : ℝ), (1 : ℝ))] := by
  constructor
  · norm_num
  · have h1 : Cylindrical.cartesian [(2 * Real.pi, (0 : ℝ), (1 : ℝ))] = [(1, 0, 0)] := by
      simp [Cylindrical.cartesian, Real.cos_two_pi, Real.sin_two_pi]
    have h2 : Cartesian.cylindrical [((1 : ℝ), 0, 0)] = [(0, 0, 1)] := by
      have ha : arctan2 0 1 = 0 := by
        have : (⟨1, 0⟩ : ℂ) = 1 := by
          apply Complex.ext <;> simp
        rw [arctan2, this, Complex.arg_one]
      simp [Cartesian.cylindrical, ha]
    rw [h1, h2]
    intro h
    have := List.head_eq_of_cons_eq h
    rw [Prod.ext_iff] at this
    have h0 : (0 : ℝ) = 2 * Real.pi := this.1
    have hpi := Real.pi_pos
    linarith

/-- C1 (amended): the conversions are mutually inverse on non-degenerate
inputs, with the one further restriction the counterexample forces: for a
Cartesian buffer it suffices that every row has radius
`sqrt(x*x + y*y) > 0`; for a cylindrical buffer the stored radius must be
positive and the stored angle must lie in `arctan2`'s range `(-π, π]`. -/
theorem c1_roundtrip_amended :
    (∀ data : List Vec3, (∀ v ∈ data, 0 < Real.sqrt (v.1 * v.1 + v.2.1 * v.2.1)) →
        Cylindrical.cartesian (Cartesian.cylindrical data) = data) ∧
      (∀ data : List Vec3,
          (∀ v ∈ data, 0 < v.2.2 ∧ -Real.pi < v.1 ∧ v.1 ≤ Real.pi) →
        Cartesian.cylindrical (Cylindrical.cartesian data) = data) := by
  constructor
  · intro data h
    rw [Cartesian.cylindrical, Cylindrical.cartesian, List.map_map]
    conv_rhs => rw [← List.map_id data]
    apply List.map_congr_left
    intro v hv
    have hr := h v hv
    have h2 : 0 < v.1 * v.1 + v.2.1 * v.2.1 := Real.sqrt_pos.mp hr
    show (Real.sqrt (v.1 * v.1 + v.2.1 * v.2.1) * Real.cos (arctan2 v.2.1 v.1),
          Real.sqrt (v.1 * v.1 + v.2.1 * v.2.1) * Real.sin (arctan2 v.2.1 v.1), v.2.2) = v
    rw [sqrt_mul_cos_arctan2 v.1 v.2.1 h2, sqrt_mul_sin_arctan2 v.1 v.2.1 h2]
  · intro data h
    rw [Cylindrical.cartesian, Cartesian.cylindrical, List.map_map]
    conv_rhs => rw [← List.map_id data]
    apply List.map_congr_left
    intro v hv
    obtain ⟨hr, h1, h2⟩ := h v hv
    show (arctan2 (v.2.2 * Real.sin v.1) (v.2.2 * Real.cos v.1), v.2.1,
          Real.sqrt (v.2.2 * Real.cos v.1 * (v.2.2 * Real.cos v.1) +
            v.2.2 * Real.sin v.1 * (v.2.2 * Real.sin v.1))) = v
    rw [arctan2_polar v.2.2 v.1 hr h1 h2, sqrt_polar v.2.2 v.1 hr.le]

/-- C1 (witness): both amended directions hold at concrete non-degenerate
buffers, the hypotheses being satisfied there. -/
theorem c1_roundtrip_witness :
    0 < Real.sqrt ((1 : ℝ) * 1 + 0 * 0) ∧
      Cylindrical.cartesian (Cartesian.cylindrical [((1 : ℝ), 0, 0)]) = [((1 : ℝ), 0, 0)] ∧
      (0 < (1 : ℝ) ∧ -Real.pi < (0 : ℝ) ∧ (0 : ℝ) ≤ Real.pi) ∧
      Cartesian.cylindrical (Cylindrical.cartesian [((0 : ℝ), 0, 1)]) = [((0 : ℝ), 0, 1)] := by
  have hpi := Real.pi_pos
  refine ⟨by norm_num, ?_, ⟨by norm_num, by linarith, by linarith⟩, ?_⟩
  · apply c1_roundtrip_amended.1
    intro v hv
    simp only [List.mem_singleton] at hv
    subst hv
    norm_num
  · apply c1_roundtrip_amended.2
    intro v hv
    simp only [List.mem_singleton] at hv
    subst hv
    refine ⟨by norm_num, by simpa using hpi, by simpa using hpi.le⟩

end Topos
